import Mathlib

/-!
Shallow embedding of the `uid-relation-system` core: the 64-bit identifier
generator (`src/core/uid_gen/mod.rs`) and the symbol registry
(`src/core/symbol_map/mod.rs`).

Conventions of the embedding:
* Rust `u64`/`usize` values are `Nat`; arithmetic that can overflow a `u64`
  carries an explicit `% 2 ^ 64`.  Counter decrements (`-= 1`) are written with
  truncated `Nat` subtraction; in every state reached by the claims the counter
  is positive, so this agrees with the Rust code (which would panic in debug or
  wrap in release only on underflow).
* `HashMap<K, V>` is an association list `List (K × V)` with first-match lookup
  and insert-or-replace; `HashSet<T>` is a duplicate-free `List T`.
* The ambient global state used by the Rust code (the wall clock read through
  `global_generator().current_timestamp()` and the global UID generator behind
  `uid_gen::next_global_uid()`) is passed explicitly: a `now : Nat` argument for
  the clock and a `gen : Except String Nat` argument for the outcome of the
  generator call.
* `UID(u64)` from `src/core/types.rs` is represented by the wrapped `Nat`.
-/

namespace UIDRel

/-! ### Identifier generator (`src/core/uid_gen/mod.rs`) -/

/-- Custom epoch 2024-01-01 00:00:00 UTC in milliseconds (`CUSTOM_EPOCH`). -/
def CUSTOM_EPOCH : Nat := 1704067200000

/-- Bit allocation constant `TIMESTAMP_BITS`. -/
def TIMESTAMP_BITS : Nat := 42

/-- Bit allocation constant `MACHINE_ID_BITS`. -/
def MACHINE_ID_BITS : Nat := 10

/-- Bit allocation constant `PROCESS_ID_BITS`. -/
def PROCESS_ID_BITS : Nat := 6

/-- Bit allocation constant `SEQUENCE_BITS`. -/
def SEQUENCE_BITS : Nat := 6

/-- Shift offset `TIMESTAMP_SHIFT = MACHINE_ID_BITS + PROCESS_ID_BITS + SEQUENCE_BITS`. -/
def TIMESTAMP_SHIFT : Nat := MACHINE_ID_BITS + PROCESS_ID_BITS + SEQUENCE_BITS

/-- Shift offset `MACHINE_ID_SHIFT = PROCESS_ID_BITS + SEQUENCE_BITS`. -/
def MACHINE_ID_SHIFT : Nat := PROCESS_ID_BITS + SEQUENCE_BITS

/-- Shift offset `PROCESS_ID_SHIFT = SEQUENCE_BITS`. -/
def PROCESS_ID_SHIFT : Nat := SEQUENCE_BITS

/-- Mask `MAX_SEQUENCE = (1 << SEQUENCE_BITS) - 1`. -/
def MAX_SEQUENCE : Nat := (1 <<< SEQUENCE_BITS) - 1

/-- Mask `MAX_MACHINE_ID = (1 << MACHINE_ID_BITS) - 1`. -/
def MAX_MACHINE_ID : Nat := (1 <<< MACHINE_ID_BITS) - 1

/-- Mask `MAX_PROCESS_ID = (1 << PROCESS_ID_BITS) - 1`. -/
def MAX_PROCESS_ID : Nat := (1 <<< PROCESS_ID_BITS) - 1

/-- Modulus of the `u64` type. -/
def U64 : Nat := 2 ^ 64

/-- Wrapping `u64` subtraction (for arguments below `2 ^ 64`). -/
def sub64 (a b : Nat) : Nat := (U64 + a - b) % U64

/-- The packing expression at the end of `UIDGenerator::next`:
`((timestamp - CUSTOM_EPOCH) << TIMESTAMP_SHIFT) | (machine_id << MACHINE_ID_SHIFT)
 | (process_id << PROCESS_ID_SHIFT) | sequence` on `u64` values. -/
def compose (timestamp machine_id process_id sequence : Nat) : Nat :=
  ((sub64 timestamp CUSTOM_EPOCH <<< TIMESTAMP_SHIFT) % U64) |||
    ((machine_id <<< MACHINE_ID_SHIFT) % U64) |||
    ((process_id <<< PROCESS_ID_SHIFT) % U64) |||
    (sequence % U64)

/-- Result record of `UIDGenerator::parse` (`UIDInfo`). -/
structure UIDInfo where
  uid : Nat
  timestamp : Nat
  machine_id : Nat
  process_id : Nat
  sequence : Nat
deriving DecidableEq, Repr

/-- `UIDGenerator::parse`. -/
def parse (uid : Nat) : UIDInfo :=
  { uid := uid
    timestamp := ((uid >>> TIMESTAMP_SHIFT) + CUSTOM_EPOCH) % U64
    machine_id := (uid >>> MACHINE_ID_SHIFT) &&& MAX_MACHINE_ID
    process_id := (uid >>> PROCESS_ID_SHIFT) &&& MAX_PROCESS_ID
    sequence := uid &&& MAX_SEQUENCE }

/-- `UIDGeneratorConfig`. -/
structure UIDGeneratorConfig where
  machine_id : Nat
  process_id : Nat
  enable_clock_drift_protection : Bool
deriving DecidableEq, Repr

/-- `UIDGenerator` state: the configuration plus `last_timestamp`, `sequence`
and the `drift_protection_enabled` field. -/
structure UIDGenerator where
  config : UIDGeneratorConfig
  last_timestamp : Nat
  sequence : Nat
  drift_protection_enabled : Bool
deriving DecidableEq, Repr

/-- `UIDGenerator::new`.  Note that the source initializes
`drift_protection_enabled: true` unconditionally; the
`config.enable_clock_drift_protection` field is not consulted. -/
def UIDGenerator.new (config : UIDGeneratorConfig) : UIDGenerator :=
  { config := config
    last_timestamp := 0
    sequence := 0
    drift_protection_enabled := true }

/-- Outcome of one iteration of the loop inside `UIDGenerator::next` for a
given wall-clock reading (single caller, so the CAS always succeeds):
either the `ClockDrift` error, the drift-protection sleep-and-retry branch,
the bounded wait for the next millisecond on sequence exhaustion, or an
emitted identifier together with the updated generator state. -/
inductive NextOutcome where
  | clockDrift (observed lastEmitted : Nat)
  | sleepRetry (deficit_ms : Nat)
  | waitNextMillis
  | emit (uid : Nat) (g : UIDGenerator)
deriving DecidableEq, Repr

/-- One iteration of the loop body of `UIDGenerator::next`, applied to the
current wall-clock reading `timestamp` (milliseconds). -/
def UIDGenerator.nextStep (g : UIDGenerator) (timestamp : Nat) : NextOutcome :=
  if timestamp < g.last_timestamp then
    if g.drift_protection_enabled then
      NextOutcome.sleepRetry (g.last_timestamp - timestamp)
    else
      NextOutcome.clockDrift timestamp g.last_timestamp
  else if timestamp = g.last_timestamp then
    let sequence := (g.sequence + 1) &&& MAX_SEQUENCE
    if sequence = 0 then
      NextOutcome.waitNextMillis
    else
      NextOutcome.emit (compose timestamp g.config.machine_id g.config.process_id sequence)
        { g with last_timestamp := timestamp, sequence := sequence }
  else
    NextOutcome.emit (compose timestamp g.config.machine_id g.config.process_id 0)
      { g with last_timestamp := timestamp, sequence := 0 }

/-! ### Association-list model of `HashMap` / `HashSet` -/

/-- Lookup in an association list (`HashMap::get`). -/
def lookupA {α β : Type} [DecidableEq α] : List (α × β) → α → Option β
  | [], _ => none
  | (k, v) :: rest, key => if k = key then some v else lookupA rest key

/-- Insert-or-replace in an association list (`HashMap::insert` and the
mutation through `entry`). -/
def insertA {α β : Type} [DecidableEq α] : List (α × β) → α → β → List (α × β)
  | [], key, v => [(key, v)]
  | (k, w) :: rest, key, v =>
    if k = key then (key, v) :: rest else (k, w) :: insertA rest key v

/-- Key removal in an association list (`HashMap::remove`). -/
def eraseA {α β : Type} [DecidableEq α] (l : List (α × β)) (key : α) : List (α × β) :=
  l.filter (fun p => decide (p.1 ≠ key))

/-- Insertion into a set modelled as a duplicate-free list (`HashSet::insert`). -/
def insertS {α : Type} [DecidableEq α] (l : List α) (a : α) : List α :=
  if a ∈ l then l else l ++ [a]

/-- Removal from a set modelled as a list (`HashSet::remove`). -/
def removeS {α : Type} [DecidableEq α] (l : List α) (a : α) : List α :=
  l.filter (fun x => decide (x ≠ a))

/-! ### Symbol registry (`src/core/symbol_map/mod.rs`) -/

/-- `Context`. -/
inductive Context where
  | Global
  | Domain (s : String)
  | Custom (uid : Nat)
  | Temporary
deriving DecidableEq, Repr

/-- ASCII fragment of Rust `str::to_lowercase` (`Char.toLower` lowers exactly
the basic-latin letters).  Every name appearing in the claims is ASCII, where
the two functions agree. -/
def rustLowercase (s : String) : String := String.mk (s.data.map Char.toLower)

/-- `SymbolMapping`. -/
structure SymbolMapping where
  symbol : String
  mappings : List (Context × Nat)
  created_at : Nat
  last_accessed : Nat
deriving DecidableEq, Repr

/-- `SymbolMapping::new`; the clock reading is the explicit `now`. -/
def SymbolMapping.new (symbol : String) (now : Nat) : SymbolMapping :=
  { symbol := symbol, mappings := [], created_at := now, last_accessed := now }

/-- `SymbolStats`. -/
structure SymbolStats where
  total_symbols : Nat
  unique_uids : Nat
  lookups : Nat
  cache_hits : Nat
  cleanup_count : Nat
deriving DecidableEq, Repr

/-- `SymbolStats::new`. -/
def SymbolStats.new : SymbolStats :=
  { total_symbols := 0, unique_uids := 0, lookups := 0, cache_hits := 0, cleanup_count := 0 }

/-- `SymbolError` (payloads of the `thiserror` variants are their format
strings' data). -/
inductive SymbolError where
  | SymbolNotFound (s : String)
  | UIDGenerationFailed (s : String)
  | SerializationError (s : String)
  | DeserializationError (s : String)
deriving DecidableEq, Repr

/-- `SymbolTable`. -/
structure SymbolTable where
  symbol_to_mapping : List (String × SymbolMapping)
  uid_to_symbols : List (Nat × List String)
  stats : SymbolStats
deriving DecidableEq, Repr

/-- `SymbolTable::new`. -/
def SymbolTable.new : SymbolTable :=
  { symbol_to_mapping := [], uid_to_symbols := [], stats := SymbolStats.new }

/-- `SymbolTable::register_symbol`.  `gen` is the outcome of the
`uid_gen::next_global_uid()` call, `now` the wall-clock reading used by
`SymbolMapping::new` / `get_uid` / `set_uid` for access-time bookkeeping.
Mirrors the source order: the unconditional `total_symbols += 1`, the
`entry(..).or_insert_with(..)` insertion, the `get_uid` hit check (which
updates `last_accessed` even on a miss), then generation, `set_uid`, the
reverse-index insertion and `unique_uids += 1`. -/
def SymbolTable.register_symbol (t : SymbolTable) (symbol : String) (context : Context)
    (gen : Except String Nat) (now : Nat) : Except SymbolError Nat × SymbolTable :=
  let stats0 := { t.stats with total_symbols := t.stats.total_symbols + 1 }
  let symbol_lower := rustLowercase symbol
  let mapping1 :=
    { (lookupA t.symbol_to_mapping symbol_lower).getD (SymbolMapping.new symbol now) with
      last_accessed := now }
  match lookupA mapping1.mappings context with
  | some existing_uid =>
    (Except.ok existing_uid,
      { t with
        symbol_to_mapping := insertA t.symbol_to_mapping symbol_lower mapping1
        stats := { stats0 with cache_hits := stats0.cache_hits + 1 } })
  | none =>
    match gen with
    | Except.error e =>
      (Except.error (SymbolError.UIDGenerationFailed e),
        { t with
          symbol_to_mapping := insertA t.symbol_to_mapping symbol_lower mapping1
          stats := stats0 })
    | Except.ok uid =>
      let mapping2 :=
        { mapping1 with mappings := insertA mapping1.mappings context uid, last_accessed := now }
      let symbols := insertS ((lookupA t.uid_to_symbols uid).getD []) symbol_lower
      (Except.ok uid,
        { symbol_to_mapping := insertA t.symbol_to_mapping symbol_lower mapping2
          uid_to_symbols := insertA t.uid_to_symbols uid symbols
          stats := { stats0 with unique_uids := stats0.unique_uids + 1 } })

/-- `SymbolTable::get_uid` (the lookup operation; `now` is the clock reading
used for the `last_accessed` update, which happens whenever the name is
present, hit or miss). -/
def SymbolTable.get_uid (t : SymbolTable) (symbol : String) (context : Context)
    (now : Nat) : Option Nat × SymbolTable :=
  let stats1 := { t.stats with lookups := t.stats.lookups + 1 }
  let symbol_lower := rustLowercase symbol
  match lookupA t.symbol_to_mapping symbol_lower with
  | none => (none, { t with stats := stats1 })
  | some mapping =>
    let mapping1 := { mapping with last_accessed := now }
    let t1 :=
      { t with
        stats := stats1
        symbol_to_mapping := insertA t.symbol_to_mapping symbol_lower mapping1 }
    match lookupA mapping1.mappings context with
    | some uid =>
      (some uid, { t1 with stats := { stats1 with cache_hits := stats1.cache_hits + 1 } })
    | none => (none, t1)

/-- `SymbolTable::set_mapping` (always returns `Ok(())` in the source, so the
embedding returns the new table). -/
def SymbolTable.set_mapping (t : SymbolTable) (symbol : String) (context : Context)
    (uid : Nat) (now : Nat) : SymbolTable :=
  let symbol_lower := rustLowercase symbol
  let mapping1 :=
    { (lookupA t.symbol_to_mapping symbol_lower).getD (SymbolMapping.new symbol now) with
      last_accessed := now }
  let t1 :=
    match lookupA mapping1.mappings context with
    | some existing_uid =>
      if existing_uid ≠ uid then
        match lookupA t.uid_to_symbols existing_uid with
        | some symbols =>
          let symbols1 := removeS symbols symbol_lower
          if symbols1 = [] then
            { t with
              uid_to_symbols := eraseA t.uid_to_symbols existing_uid
              stats := { t.stats with unique_uids := t.stats.unique_uids - 1 } }
          else
            { t with uid_to_symbols := insertA t.uid_to_symbols existing_uid symbols1 }
        | none => t
      else t
    | none => t
  let mapping2 :=
    { mapping1 with mappings := insertA mapping1.mappings context uid, last_accessed := now }
  let symbols := insertS ((lookupA t1.uid_to_symbols uid).getD []) symbol_lower
  let uid_to_symbols1 := insertA t1.uid_to_symbols uid symbols
  { symbol_to_mapping := insertA t1.symbol_to_mapping symbol_lower mapping2
    uid_to_symbols := uid_to_symbols1
    stats := { t1.stats with unique_uids := uid_to_symbols1.length } }

/-- `SymbolTable::remove_mapping`. -/
def SymbolTable.remove_mapping (t : SymbolTable) (symbol : String) (context : Context) :
    Bool × SymbolTable :=
  let symbol_lower := rustLowercase symbol
  match lookupA t.symbol_to_mapping symbol_lower with
  | none => (false, t)
  | some mapping =>
    match lookupA mapping.mappings context with
    | none => (false, t)
    | some uid =>
      let mapping1 := { mapping with mappings := eraseA mapping.mappings context }
      let t1 :=
        match lookupA t.uid_to_symbols uid with
        | none => t
        | some symbols =>
          let symbols1 := removeS symbols symbol_lower
          if symbols1 = [] then
            { t with
              uid_to_symbols := eraseA t.uid_to_symbols uid
              stats := { t.stats with unique_uids := t.stats.unique_uids - 1 } }
          else
            { t with uid_to_symbols := insertA t.uid_to_symbols uid symbols1 }
      if mapping1.mappings = [] then
        (true,
          { t1 with
            symbol_to_mapping := eraseA t1.symbol_to_mapping symbol_lower
            stats := { t1.stats with total_symbols := t1.stats.total_symbols - 1 } })
      else
        (true,
          { t1 with symbol_to_mapping := insertA t1.symbol_to_mapping symbol_lower mapping1 })

/-- Reverse-index update performed for each `(_, uid)` of a removed entry in
the loop body of `SymbolTable::cleanup` (no stats update here; the counters
are recomputed after the loop). -/
def removeSymbolFromUid (symbol : String) (t : SymbolTable) (uid : Nat) : SymbolTable :=
  match lookupA t.uid_to_symbols uid with
  | none => t
  | some symbols =>
    let symbols1 := removeS symbols symbol
    if symbols1 = [] then
      { t with uid_to_symbols := eraseA t.uid_to_symbols uid }
    else
      { t with uid_to_symbols := insertA t.uid_to_symbols uid symbols1 }

/-- Removal of one stale symbol inside `SymbolTable::cleanup`: delete the
forward entry and cascade through the reverse index for each of its context
mappings. -/
def SymbolTable.cleanupRemove (t : SymbolTable) (symbol : String) : SymbolTable :=
  match lookupA t.symbol_to_mapping symbol with
  | none => t
  | some mapping =>
    let t1 := { t with symbol_to_mapping := eraseA t.symbol_to_mapping symbol }
    mapping.mappings.foldl (fun acc p => removeSymbolFromUid symbol acc p.2) t1

/-- `SymbolTable::cleanup`.  `now` is the clock reading; an entry is stale when
`now.saturating_sub(last_accessed) > max_age_ms` (Nat subtraction is exactly
`saturating_sub`).  The `min_access_count` parameter is accepted but never
used, as in the source.  After the removal loop the source recomputes
`total_symbols` and `unique_uids` from the container sizes and adds the
removed count to `cleanup_count`. -/
def SymbolTable.cleanup (t : SymbolTable) (max_age_ms min_access_count now : Nat) :
    Nat × SymbolTable :=
  let to_remove :=
    (t.symbol_to_mapping.filter
      (fun p => decide (max_age_ms < now - p.2.last_accessed))).map Prod.fst
  let removed_count := to_remove.length
  let t1 := to_remove.foldl SymbolTable.cleanupRemove t
  (removed_count,
    { t1 with
      stats := { t1.stats with
        total_symbols := t1.symbol_to_mapping.length
        unique_uids := t1.uid_to_symbols.length
        cleanup_count := t1.stats.cleanup_count + removed_count } })

/-- Observation helper (not a source function): the identifier currently
stored in the forward table for the normalized name under `context`.  This is
`get_uid` stripped of its stats and access-time side effects, used only to
state properties. -/
def SymbolTable.mappingUid (t : SymbolTable) (symbol : String) (context : Context) :
    Option Nat :=
  match lookupA t.symbol_to_mapping (rustLowercase symbol) with
  | none => none
  | some m => lookupA m.mappings context

/-! ### Lemmas about the association-list containers -/

theorem lookupA_insertA_self {α β : Type} [DecidableEq α] (l : List (α × β)) (k : α) (v : β) :
    lookupA (insertA l k v) k = some v := by
  induction l with
  | nil => simp [insertA, lookupA]
  | cons hd tl ih =>
    obtain ⟨k1, v1⟩ := hd
    by_cases h : k1 = k
    · simp [insertA, h, lookupA]
    · simp [insertA, h, lookupA, ih]

theorem lookupA_insertA_ne {α β : Type} [DecidableEq α] (l : List (α × β)) (k k' : α) (v : β)
    (h : k' ≠ k) : lookupA (insertA l k v) k' = lookupA l k' := by
  induction l with
  | nil => simp [insertA, lookupA, Ne.symm h]
  | cons hd tl ih =>
    obtain ⟨k1, v1⟩ := hd
    by_cases h1 : k1 = k
    · subst h1
      simp [insertA, lookupA, Ne.symm h]
    · by_cases h2 : k1 = k'
      · simp [insertA, h1, lookupA, h2, h, Ne.symm h]
      · simp [insertA, h1, lookupA, h2, ih]

theorem lookupA_eraseA_self {α β : Type} [DecidableEq α] (l : List (α × β)) (k : α) :
    lookupA (eraseA l k) k = none := by
  induction l with
  | nil => simp [eraseA, lookupA]
  | cons hd tl ih =>
    obtain ⟨k1, v1⟩ := hd
    by_cases h : k1 = k
    · simpa [eraseA, h] using ih
    · simpa [eraseA, lookupA, h] using ih

theorem lookupA_eraseA_ne {α β : Type} [DecidableEq α] (l : List (α × β)) (k k' : α)
    (h : k' ≠ k) : lookupA (eraseA l k) k' = lookupA l k' := by
  induction l with
  | nil => simp [eraseA, lookupA]
  | cons hd tl ih =>
    obtain ⟨k1, v1⟩ := hd
    by_cases h1 : k1 = k
    · subst h1
      simpa [eraseA, lookupA, Ne.symm h] using ih
    · by_cases h2 : k1 = k'
      · simp [eraseA, lookupA, h1, h2, h, Ne.symm h]
      · simpa [eraseA, lookupA, h1, h2] using ih

theorem lookupA_none_eraseA {α β : Type} [DecidableEq α] (l : List (α × β)) (k k' : α)
    (h : lookupA l k' = none) : lookupA (eraseA l k) k' = none := by
  by_cases hk : k' = k
  · subst hk
    exact lookupA_eraseA_self l k'
  · rw [lookupA_eraseA_ne l k k' hk]
    exact h

theorem eraseA_of_lookupA_none {α β : Type} [DecidableEq α] (l : List (α × β)) (k : α)
    (h : lookupA l k = none) : eraseA l k = l := by
  induction l with
  | nil => rfl
  | cons hd tl ih =>
    obtain ⟨k1, v1⟩ := hd
    by_cases h1 : k1 = k
    · simp [lookupA, h1] at h
    · simp only [lookupA, if_neg h1] at h
      simp [eraseA, h1] at ih ⊢
      exact ih h

theorem mem_of_lookupA {α β : Type} [DecidableEq α] (l : List (α × β)) (k : α) (v : β)
    (h : lookupA l k = some v) : (k, v) ∈ l := by
  induction l with
  | nil => simp [lookupA] at h
  | cons hd tl ih =>
    obtain ⟨k1, v1⟩ := hd
    by_cases h1 : k1 = k
    · subst h1
      simp [lookupA] at h
      simp [h]
    · simp only [lookupA, if_neg h1] at h
      simp [ih h]

theorem lookupA_of_mem_nodup {α β : Type} [DecidableEq α] (l : List (α × β)) (k : α) (v : β)
    (hn : (l.map Prod.fst).Nodup) (h : (k, v) ∈ l) : lookupA l k = some v := by
  induction l with
  | nil => simp at h
  | cons hd tl ih =>
    obtain ⟨k1, v1⟩ := hd
    simp only [List.map_cons, List.nodup_cons] at hn
    rcases List.mem_cons.mp h with h0 | h0
    · rw [Prod.mk.injEq] at h0
      simp [lookupA, h0.1, h0.2]
    · have hk : k1 ≠ k := by
        intro e
        subst e
        exact hn.1 (List.mem_map.mpr ⟨(k1, v), h0, rfl⟩)
      simp [lookupA, hk, ih hn.2 h0]

theorem mem_keys_of_lookupA_some {α β : Type} [DecidableEq α] (l : List (α × β)) (k : α)
    (v : β) (h : lookupA l k = some v) : k ∈ l.map Prod.fst :=
  List.mem_map.mpr ⟨(k, v), mem_of_lookupA l k v h, rfl⟩

theorem keys_eraseA_sublist {α β : Type} [DecidableEq α] (l : List (α × β)) (k : α) :
    List.Sublist ((eraseA l k).map Prod.fst) (l.map Prod.fst) :=
  (List.filter_sublist l).map Prod.fst

theorem mem_keys_eraseA {α β : Type} [DecidableEq α] (l : List (α × β)) (k k' : α) :
    k' ∈ (eraseA l k).map Prod.fst ↔ k' ∈ l.map Prod.fst ∧ k' ≠ k := by
  simp only [eraseA, List.mem_map, List.mem_filter, decide_eq_true_eq]
  constructor
  · rintro ⟨p, ⟨hp, hk⟩, rfl⟩
    exact ⟨⟨p, hp, rfl⟩, hk⟩
  · rintro ⟨⟨p, hp, rfl⟩, hk⟩
    exact ⟨p, ⟨hp, hk⟩, rfl⟩

theorem length_eraseA_of_mem {α β : Type} [DecidableEq α] (l : List (α × β)) (k : α)
    (hn : (l.map Prod.fst).Nodup) (hk : k ∈ l.map Prod.fst) :
    (eraseA l k).length + 1 = l.length := by
  induction l with
  | nil => simp at hk
  | cons hd tl ih =>
    obtain ⟨k1, v1⟩ := hd
    simp only [List.map_cons, List.nodup_cons] at hn
    rcases List.mem_cons.mp hk with h0 | h0
    · subst h0
      have he1 : eraseA ((k, v1) :: tl) k = eraseA tl k := by
        simp [eraseA]
      have he2 : eraseA tl k = tl := by
        apply eraseA_of_lookupA_none
        cases he : lookupA tl k with
        | none => rfl
        | some w => exact absurd (mem_keys_of_lookupA_some tl k w he) hn.1
      rw [he1, he2]
      simp
    · have hk1 : k1 ≠ k := by
        intro e
        subst e
        exact hn.1 h0
      have he1 : eraseA ((k1, v1) :: tl) k = (k1, v1) :: eraseA tl k := by
        simp [eraseA, hk1]
      rw [he1]
      simp only [List.length_cons]
      rw [← ih hn.2 h0]

theorem foldl_eraseA_lookup_not_mem {α β : Type} [DecidableEq α] (rs : List α) :
    ∀ (l : List (α × β)) (k : α), k ∉ rs →
      lookupA (rs.foldl eraseA l) k = lookupA l k := by
  induction rs with
  | nil => intro l k _; rfl
  | cons r rs ih =>
    intro l k hk
    have h1 : k ≠ r := fun e => hk (e ▸ List.mem_cons_self r rs)
    have h2 : k ∉ rs := fun e => hk (List.mem_cons_of_mem r e)
    simpa [List.foldl_cons, ih (eraseA l r) k h2] using lookupA_eraseA_ne l r k h1

theorem foldl_eraseA_lookup_none {α β : Type} [DecidableEq α] (rs : List α) :
    ∀ (l : List (α × β)) (k : α), lookupA l k = none →
      lookupA (rs.foldl eraseA l) k = none := by
  induction rs with
  | nil => intro l k h; exact h
  | cons r rs ih =>
    intro l k h
    exact ih (eraseA l r) k (lookupA_none_eraseA l r k h)

theorem foldl_eraseA_lookup_mem {α β : Type} [DecidableEq α] (rs : List α) :
    ∀ (l : List (α × β)) (k : α), k ∈ rs →
      lookupA (rs.foldl eraseA l) k = none := by
  induction rs with
  | nil => intro l k h; simp at h
  | cons r rs ih =>
    intro l k hk
    by_cases h2 : k ∈ rs
    · exact ih (eraseA l r) k h2
    · have : k = r := by
        rcases List.mem_cons.mp hk with h | h
        · exact h
        · exact absurd h h2
      subst this
      exact foldl_eraseA_lookup_none rs (eraseA l k) k (lookupA_eraseA_self l k)

theorem foldl_eraseA_length {α β : Type} [DecidableEq α] (rs : List α) :
    ∀ (l : List (α × β)), (l.map Prod.fst).Nodup → rs.Nodup →
      (∀ s ∈ rs, s ∈ l.map Prod.fst) →
      (rs.foldl eraseA l).length + rs.length = l.length := by
  induction rs with
  | nil => intro l _ _ _; simp
  | cons r rs ih =>
    intro l hn hrs hmem
    simp only [List.nodup_cons] at hrs
    have hr : r ∈ l.map Prod.fst := hmem r (List.mem_cons_self r rs)
    have hnerase : ((eraseA l r).map Prod.fst).Nodup :=
      hn.sublist (keys_eraseA_sublist l r)
    have hmem2 : ∀ s ∈ rs, s ∈ (eraseA l r).map Prod.fst := by
      intro s hs
      exact (mem_keys_eraseA l r s).mpr ⟨hmem s (List.mem_cons_of_mem r hs),
        fun e => hrs.1 (e ▸ hs)⟩
    have h1 := ih (eraseA l r) hnerase hrs.2 hmem2
    have h2 := length_eraseA_of_mem l r hn hr
    simp only [List.foldl_cons, List.length_cons]
    omega

theorem not_mem_removeS {α : Type} [DecidableEq α] (l : List α) (a : α) :
    a ∉ removeS l a := by
  simp [removeS, List.mem_filter]

/-! ### Structural lemmas about `cleanup` -/

theorem removeSymbolFromUid_symbol_map (sym : String) (t : SymbolTable) (uid : Nat) :
    (removeSymbolFromUid sym t uid).symbol_to_mapping = t.symbol_to_mapping := by
  unfold removeSymbolFromUid
  cases h : lookupA t.uid_to_symbols uid with
  | none => rfl
  | some symbols =>
    by_cases he : removeS symbols sym = []
    · simp [he]
    · simp [he]

theorem foldl_removeSymbolFromUid_symbol_map (sym : String) (ms : List (Context × Nat)) :
    ∀ t : SymbolTable,
      (ms.foldl (fun acc p => removeSymbolFromUid sym acc p.2) t).symbol_to_mapping =
        t.symbol_to_mapping := by
  induction ms with
  | nil => intro t; rfl
  | cons hd tl ih =>
    intro t
    rw [List.foldl_cons, ih, removeSymbolFromUid_symbol_map]

theorem cleanupRemove_symbol_map (t : SymbolTable) (s : String) :
    (t.cleanupRemove s).symbol_to_mapping = eraseA t.symbol_to_mapping s := by
  unfold SymbolTable.cleanupRemove
  cases h : lookupA t.symbol_to_mapping s with
  | none => simp [eraseA_of_lookupA_none _ _ h]
  | some mapping => simp [foldl_removeSymbolFromUid_symbol_map]

theorem foldl_cleanupRemove_symbol_map (rs : List String) :
    ∀ t : SymbolTable,
      (rs.foldl SymbolTable.cleanupRemove t).symbol_to_mapping =
        rs.foldl eraseA t.symbol_to_mapping := by
  induction rs with
  | nil => intro t; rfl
  | cons hd tl ih =>
    intro t
    rw [List.foldl_cons, List.foldl_cons, ih, cleanupRemove_symbol_map]

/-! ### Branch lemmas about `register_symbol` and `get_uid` -/

theorem register_hit_fst (t : SymbolTable) (symbol : String) (context : Context)
    (gen : Except String Nat) (now : Nat) (m : SymbolMapping) (u : Nat)
    (hm : lookupA t.symbol_to_mapping (rustLowercase symbol) = some m)
    (hu : lookupA m.mappings context = some u) :
    (t.register_symbol symbol context gen now).1 = Except.ok u := by
  simp [SymbolTable.register_symbol, hm, hu]

theorem register_ok_mappingUid (t : SymbolTable) (symbol : String) (context : Context)
    (gen : Except String Nat) (now : Nat) (u : Nat)
    (h : (t.register_symbol symbol context gen now).1 = Except.ok u) :
    (t.register_symbol symbol context gen now).2.mappingUid symbol context = some u := by
  rcases hc : lookupA ((lookupA t.symbol_to_mapping (rustLowercase symbol)).getD
      (SymbolMapping.new symbol now)).mappings context with _ | u0
  · rcases gen with e | uid
    · simp [SymbolTable.register_symbol, hc] at h
    · simp [SymbolTable.register_symbol, hc] at h ⊢
      subst h
      simp [SymbolTable.mappingUid, lookupA_insertA_self]
  · simp [SymbolTable.register_symbol, hc] at h ⊢
    subst h
    simp [SymbolTable.mappingUid, lookupA_insertA_self, hc]

theorem mappingUid_register_hit (t : SymbolTable) (symbol : String) (context : Context)
    (gen : Except String Nat) (now : Nat) (u : Nat)
    (h : t.mappingUid symbol context = some u) :
    (t.register_symbol symbol context gen now).1 = Except.ok u := by
  unfold SymbolTable.mappingUid at h
  rcases hm : lookupA t.symbol_to_mapping (rustLowercase symbol) with _ | m
  · simp only [hm] at h
    exact Option.noConfusion h
  · simp only [hm] at h
    exact register_hit_fst t symbol context gen now m u hm h

theorem get_uid_hit_fst (t : SymbolTable) (symbol : String) (context : Context) (now : Nat)
    (u : Nat) (h : t.mappingUid symbol context = some u) :
    (t.get_uid symbol context now).1 = some u := by
  unfold SymbolTable.mappingUid at h
  rcases hm : lookupA t.symbol_to_mapping (rustLowercase symbol) with _ | m
  · simp only [hm] at h
    exact Option.noConfusion h
  · simp only [hm] at h
    simp [SymbolTable.get_uid, hm, h]

theorem register_total_symbols (t : SymbolTable) (symbol : String) (context : Context)
    (gen : Except String Nat) (now : Nat) :
    (t.register_symbol symbol context gen now).2.stats.total_symbols =
      t.stats.total_symbols + 1 := by
  rcases hc : lookupA ((lookupA t.symbol_to_mapping (rustLowercase symbol)).getD
      (SymbolMapping.new symbol now)).mappings context with _ | u0
  · rcases gen with e | uid
    · simp [SymbolTable.register_symbol, hc]
    · simp [SymbolTable.register_symbol, hc]
  · simp [SymbolTable.register_symbol, hc]

/-! ### Bit-packing arithmetic for the identifier generator -/

theorem orPack (a b i : Nat) (hb : b < 2 ^ i) : a * 2 ^ i ||| b = a * 2 ^ i + b := by
  rw [Nat.mul_comm]
  exact (Nat.mul_add_lt_is_or hb a).symm

theorem compose_eq_sum (d m p s : Nat) (hd : d < 2 ^ 42) (hm : m < 2 ^ 10)
    (hp : p < 2 ^ 6) (hs : s < 2 ^ 6) :
    compose (CUSTOM_EPOCH + d) m p s = d * 2 ^ 22 + (m * 2 ^ 12 + (p * 2 ^ 6 + s)) := by
  norm_num at hd hm hp hs
  have e1 : sub64 (CUSTOM_EPOCH + d) CUSTOM_EPOCH = d := by
    unfold sub64 U64 CUSTOM_EPOCH
    norm_num
    omega
  unfold compose
  rw [e1, Nat.shiftLeft_eq, Nat.shiftLeft_eq, Nat.shiftLeft_eq]
  have eTS : TIMESTAMP_SHIFT = 22 := rfl
  have eMS : MACHINE_ID_SHIFT = 12 := rfl
  have ePS : PROCESS_ID_SHIFT = 6 := rfl
  rw [eTS, eMS, ePS]
  have w1 : d * 2 ^ 22 % U64 = d * 2 ^ 22 := by
    apply Nat.mod_eq_of_lt
    unfold U64
    norm_num
    omega
  have w2 : m * 2 ^ 12 % U64 = m * 2 ^ 12 := by
    apply Nat.mod_eq_of_lt
    unfold U64
    norm_num
    omega
  have w3 : p * 2 ^ 6 % U64 = p * 2 ^ 6 := by
    apply Nat.mod_eq_of_lt
    unfold U64
    norm_num
    omega
  have w4 : s % U64 = s := by
    apply Nat.mod_eq_of_lt
    unfold U64
    norm_num
    omega
  rw [w1, w2, w3, w4, Nat.or_assoc, Nat.or_assoc]
  have o1 : p * 2 ^ 6 ||| s = p * 2 ^ 6 + s := orPack p s 6 hs
  have hps : p * 2 ^ 6 + s < 2 ^ 12 := by norm_num; omega
  have o2 : m * 2 ^ 12 ||| (p * 2 ^ 6 + s) = m * 2 ^ 12 + (p * 2 ^ 6 + s) :=
    orPack m _ 12 hps
  have hmps : m * 2 ^ 12 + (p * 2 ^ 6 + s) < 2 ^ 22 := by norm_num; omega
  have o3 : d * 2 ^ 22 ||| (m * 2 ^ 12 + (p * 2 ^ 6 + s)) =
      d * 2 ^ 22 + (m * 2 ^ 12 + (p * 2 ^ 6 + s)) := orPack d _ 22 hmps
  rw [o1, o2, o3]

/-! ### Claim theorems -/

/-- C2: for all field values within their designated widths (42-bit timestamp
delta above the epoch, 10-bit machine id, 6-bit process id, 6-bit sequence),
`parse` recovers exactly the four fields packed by the composition step of
`UIDGenerator::next`. -/
theorem c2_parse_compose_roundtrip (ts m p s : Nat) (h1 : CUSTOM_EPOCH ≤ ts)
    (h2 : ts - CUSTOM_EPOCH < 2 ^ 42) (hm : m < 2 ^ 10) (hp : p < 2 ^ 6) (hs : s < 2 ^ 6) :
    parse (compose ts m p s) = ⟨compose ts m p s, ts, m, p, s⟩ := by
  obtain ⟨d, rfl⟩ : ∃ d, ts = CUSTOM_EPOCH + d := ⟨ts - CUSTOM_EPOCH, by omega⟩
  have hd : d < 2 ^ 42 := by omega
  have hsum := compose_eq_sum d m p s hd hm hp hs
  norm_num at hd hm hp hs
  unfold parse
  rw [hsum]
  have eTS : TIMESTAMP_SHIFT = 22 := rfl
  have eMS : MACHINE_ID_SHIFT = 12 := rfl
  have ePS : PROCESS_ID_SHIFT = 6 := rfl
  have eMM : MAX_MACHINE_ID = 2 ^ 10 - 1 := by decide
  have eMP : MAX_PROCESS_ID = 2 ^ 6 - 1 := by decide
  have eMS2 : MAX_SEQUENCE = 2 ^ 6 - 1 := by decide
  rw [eTS, eMS, ePS, eMM, eMP, eMS2,
    Nat.shiftRight_eq_div_pow, Nat.shiftRight_eq_div_pow,
    Nat.and_pow_two_sub_one_eq_mod, Nat.and_pow_two_sub_one_eq_mod,
    Nat.and_pow_two_sub_one_eq_mod]
  simp only [UIDInfo.mk.injEq]
  refine ⟨trivial, ?_, ?_, ?_, ?_⟩
  · unfold U64 CUSTOM_EPOCH
    norm_num
    omega
  · norm_num; omega
  · norm_num; omega
  · norm_num; omega

/-- Witness for C2 at the concrete field values
timestamp = epoch + 5, machine id 3, process id 2, sequence 1. -/
theorem c2_roundtrip_witness :
    parse (compose (CUSTOM_EPOCH + 5) 3 2 1) =
      ⟨compose (CUSTOM_EPOCH + 5) 3 2 1, CUSTOM_EPOCH + 5, 3, 2, 1⟩ :=
  c2_parse_compose_roundtrip (CUSTOM_EPOCH + 5) 3 2 1 (by decide) (by decide)
    (by decide) (by decide) (by decide)

/-- C5 (code bug evidence): a generator built by `UIDGenerator::new` from a
configuration with `enable_clock_drift_protection = false` still has
`drift_protection_enabled = true`, and on a clock regression (first reading
epoch+100, second reading epoch+50) the loop takes the sleep-and-retry branch
instead of returning `ClockDrift`. -/
theorem c5_new_ignores_drift_config_flag :
    (UIDGenerator.new ⟨1, 2, false⟩).drift_protection_enabled = true ∧
    (UIDGenerator.new ⟨1, 2, false⟩).nextStep (CUSTOM_EPOCH + 100) =
      NextOutcome.emit (compose (CUSTOM_EPOCH + 100) 1 2 0)
        { config := ⟨1, 2, false⟩, last_timestamp := CUSTOM_EPOCH + 100, sequence := 0,
          drift_protection_enabled := true } ∧
    ({ config := ⟨1, 2, false⟩, last_timestamp := CUSTOM_EPOCH + 100, sequence := 0,
        drift_protection_enabled := true } : UIDGenerator).nextStep (CUSTOM_EPOCH + 50) =
      NextOutcome.sleepRetry 50 ∧
    ({ config := ⟨1, 2, false⟩, last_timestamp := CUSTOM_EPOCH + 100, sequence := 0,
        drift_protection_enabled := true } : UIDGenerator).nextStep (CUSTOM_EPOCH + 50) ≠
      NextOutcome.clockDrift (CUSTOM_EPOCH + 50) (CUSTOM_EPOCH + 100) := by
  refine ⟨rfl, by decide, by decide, by decide⟩

theorem mappingUid_congr (t : SymbolTable) (s1 s2 : String) (context : Context)
    (h : rustLowercase s1 = rustLowercase s2) :
    t.mappingUid s1 context = t.mappingUid s2 context := by
  unfold SymbolTable.mappingUid
  rw [h]

/-- C7: `register_symbol` is idempotent.  If the first call returned
identifier `u`, a second call for the same (name, context) with no intervening
removal returns the same `u` (for any outcome of the generator and any clock
reading) and leaves the stored (name, context) mapping pointing at `u`. -/
theorem c7_register_idempotent (t : SymbolTable) (symbol : String) (context : Context)
    (gen gen2 : Except String Nat) (now now2 : Nat) (u : Nat)
    (h : (t.register_symbol symbol context gen now).1 = Except.ok u) :
    ((t.register_symbol symbol context gen now).2.register_symbol symbol context
        gen2 now2).1 = Except.ok u ∧
    ((t.register_symbol symbol context gen now).2.register_symbol symbol context
        gen2 now2).2.mappingUid symbol context = some u := by
  have h1 := register_ok_mappingUid t symbol context gen now u h
  have h2 := mappingUid_register_hit (t.register_symbol symbol context gen now).2
    symbol context gen2 now2 u h1
  exact ⟨h2, register_ok_mappingUid _ symbol context gen2 now2 u h2⟩

/-- Witness for C7: registering "x" twice in the global context returns 5
both times even though the second generator outcome is 6. -/
theorem c7_witness :
    ((SymbolTable.new.register_symbol "x" Context.Global (Except.ok 5) 0).2.register_symbol
        "x" Context.Global (Except.ok 6) 1).1 = Except.ok 5 ∧
    ((SymbolTable.new.register_symbol "x" Context.Global (Except.ok 5) 0).2.register_symbol
        "x" Context.Global (Except.ok 6) 1).2.mappingUid "x" Context.Global = some 5 :=
  c7_register_idempotent SymbolTable.new "x" Context.Global (Except.ok 5) (Except.ok 6)
    0 1 5 rfl

/-- C8: name handling is case-fold equivalent.  After a successful
`register_symbol "Hello"` returning `u`, registering "hello" and "HELLO" in
the same context returns the same `u`, and `get_uid "HELLO"` resolves to `u`
as well. -/
theorem c8_case_fold_equivalent (t : SymbolTable) (gen1 gen2 gen3 : Except String Nat)
    (n1 n2 n3 n4 : Nat) (u : Nat)
    (h : (t.register_symbol "Hello" Context.Global gen1 n1).1 = Except.ok u) :
    ((t.register_symbol "Hello" Context.Global gen1 n1).2.register_symbol "hello"
        Context.Global gen2 n2).1 = Except.ok u ∧
    (((t.register_symbol "Hello" Context.Global gen1 n1).2.register_symbol "hello"
        Context.Global gen2 n2).2.register_symbol "HELLO" Context.Global gen3 n3).1 =
      Except.ok u ∧
    ((((t.register_symbol "Hello" Context.Global gen1 n1).2.register_symbol "hello"
        Context.Global gen2 n2).2.register_symbol "HELLO" Context.Global gen3 n3).2.get_uid
        "HELLO" Context.Global n4).1 = some u := by
  have e1 : rustLowercase "hello" = rustLowercase "Hello" := by decide
  have e2 : rustLowercase "HELLO" = rustLowercase "hello" := by decide
  have h1 := register_ok_mappingUid t "Hello" Context.Global gen1 n1 u h
  have h1b : (t.register_symbol "Hello" Context.Global gen1 n1).2.mappingUid "hello"
      Context.Global = some u := by
    rw [mappingUid_congr _ "hello" "Hello" Context.Global e1]
    exact h1
  have r2 := mappingUid_register_hit (t.register_symbol "Hello" Context.Global gen1 n1).2
    "hello" Context.Global gen2 n2 u h1b
  have h2 := register_ok_mappingUid _ "hello" Context.Global gen2 n2 u r2
  have h2b : ((t.register_symbol "Hello" Context.Global gen1 n1).2.register_symbol "hello"
      Context.Global gen2 n2).2.mappingUid "HELLO" Context.Global = some u := by
    rw [mappingUid_congr _ "HELLO" "hello" Context.Global e2]
    exact h2
  have r3 := mappingUid_register_hit _ "HELLO" Context.Global gen3 n3 u h2b
  have h3 := register_ok_mappingUid _ "HELLO" Context.Global gen3 n3 u r3
  have r4 := get_uid_hit_fst _ "HELLO" Context.Global n4 u h3
  exact ⟨r2, r3, r4⟩

/-- Witness for C8 starting from the empty registry with generator outcome 5
for the first call. -/
theorem c8_witness :
    ((SymbolTable.new.register_symbol "Hello" Context.Global (Except.ok 5) 0).2.register_symbol
        "hello" Context.Global (Except.ok 6) 1).1 = Except.ok 5 ∧
    (((SymbolTable.new.register_symbol "Hello" Context.Global (Except.ok 5) 0).2.register_symbol
        "hello" Context.Global (Except.ok 6) 1).2.register_symbol "HELLO" Context.Global
        (Except.ok 7) 2).1 = Except.ok 5 ∧
    ((((SymbolTable.new.register_symbol "Hello" Context.Global (Except.ok 5) 0).2.register_symbol
        "hello" Context.Global (Except.ok 6) 1).2.register_symbol "HELLO" Context.Global
        (Except.ok 7) 2).2.get_uid "HELLO" Context.Global 3).1 = some 5 :=
  c8_case_fold_equivalent SymbolTable.new (Except.ok 5) (Except.ok 6) (Except.ok 7)
    0 1 2 3 5 rfl

/-- C9: a sequence of operations in which `cache_hits` ends strictly above
`lookups`: a fresh registration of "a" (miss), a second registration of "a"
(hit: `cache_hits` becomes 1 with `lookups` still 0), then one `get_uid`
(`lookups` becomes 1, `cache_hits` 2).  The derived hit rate 2/1 exceeds 1. -/
theorem c9_cache_hits_exceed_lookups :
    ((((SymbolTable.new.register_symbol "a" Context.Global (Except.ok 5) 0).2.register_symbol
        "a" Context.Global (Except.ok 6) 0).2.get_uid "a" Context.Global 0).2).stats.cache_hits
      = 2 ∧
    ((((SymbolTable.new.register_symbol "a" Context.Global (Except.ok 5) 0).2.register_symbol
        "a" Context.Global (Except.ok 6) 0).2.get_uid "a" Context.Global 0).2).stats.lookups
      = 1 ∧
    ((((SymbolTable.new.register_symbol "a" Context.Global (Except.ok 5) 0).2.register_symbol
        "a" Context.Global (Except.ok 6) 0).2.get_uid "a" Context.Global 0).2).stats.lookups
      < ((((SymbolTable.new.register_symbol "a" Context.Global (Except.ok 5) 0).2.register_symbol
        "a" Context.Global (Except.ok 6) 0).2.get_uid "a" Context.Global 0).2).stats.cache_hits := by
  refine ⟨by decide, by decide, by decide⟩

/-- C6 counterexample: registering the same (name, context) twice leaves
`total_symbols = 2` even though the forward table holds a single distinct
name, refuting "total_symbols equals the number of distinct names; k
registrations leave it at 1". -/
theorem c6_counterexample :
    ((SymbolTable.new.register_symbol "a" Context.Global (Except.ok 5) 0).2.register_symbol
        "a" Context.Global (Except.ok 6) 0).2.stats.total_symbols = 2 ∧
    ((SymbolTable.new.register_symbol "a" Context.Global (Except.ok 5) 0).2.register_symbol
        "a" Context.Global (Except.ok 6) 0).2.symbol_to_mapping.length = 1 ∧
    (2 : Nat) ≠ 1 := by
  refine ⟨by decide, by decide, by decide⟩

/-- C6 amended: `register_symbol` unconditionally increments `total_symbols`
by one on every call (hit, fresh registration, or generator failure alike), so
k calls for one (name, context) leave the counter at k, not 1; it counts
register calls, not distinct names. -/
theorem c6_register_always_increments_total (t : SymbolTable) (symbol : String)
    (context : Context) (gen : Except String Nat) (now : Nat) :
    (t.register_symbol symbol context gen now).2.stats.total_symbols =
      t.stats.total_symbols + 1 :=
  register_total_symbols t symbol context gen now

/-- C3 counterexample: a `register_symbol` call that fails with
`SymbolGenerationFailed` does not leave the registry unchanged: on the empty
registry, `total_symbols` has moved from 0 to 1. -/
theorem c3_counterexample :
    (SymbolTable.new.register_symbol "a" Context.Global (Except.error "boom") 0).1 =
      Except.error (SymbolError.UIDGenerationFailed "boom") ∧
    (SymbolTable.new.register_symbol "a" Context.Global
        (Except.error "boom") 0).2.stats.total_symbols ≠
      SymbolTable.new.stats.total_symbols := by
  refine ⟨rfl, by decide⟩

/-- C3 amended: when `register_symbol` fails because the generator failed, the
reverse index and the `unique_uids`, `cache_hits`, `lookups`, `cleanup_count`
counters are unchanged and no (name, context) identifier mapping is created,
but the failed call still increments `total_symbols` and leaves a (possibly
fresh and empty) forward entry for the normalized name. -/
theorem c3_register_failure_partial_state (t : SymbolTable) (symbol : String)
    (context : Context) (gen : Except String Nat) (now : Nat) (err : SymbolError)
    (h : (t.register_symbol symbol context gen now).1 = Except.error err) :
    (t.register_symbol symbol context gen now).2.stats.total_symbols =
      t.stats.total_symbols + 1 ∧
    (t.register_symbol symbol context gen now).2.uid_to_symbols = t.uid_to_symbols ∧
    (t.register_symbol symbol context gen now).2.stats.unique_uids =
      t.stats.unique_uids ∧
    (t.register_symbol symbol context gen now).2.stats.cache_hits =
      t.stats.cache_hits ∧
    (t.register_symbol symbol context gen now).2.stats.lookups = t.stats.lookups ∧
    (t.register_symbol symbol context gen now).2.stats.cleanup_count =
      t.stats.cleanup_count ∧
    (t.register_symbol symbol context gen now).2.mappingUid symbol context = none ∧
    (lookupA (t.register_symbol symbol context gen now).2.symbol_to_mapping
      (rustLowercase symbol)).isSome = true := by
  rcases hc : lookupA ((lookupA t.symbol_to_mapping (rustLowercase symbol)).getD
      (SymbolMapping.new symbol now)).mappings context with _ | u0
  · rcases gen with e | uid
    · refine ⟨?_, ?_, ?_, ?_, ?_, ?_, ?_, ?_⟩ <;>
        simp [SymbolTable.register_symbol, hc, SymbolTable.mappingUid,
          lookupA_insertA_self]
    · simp [SymbolTable.register_symbol, hc] at h
  · simp [SymbolTable.register_symbol, hc] at h

/-- Witness for C3 (amended): the failing registration of "a" on the empty
registry. -/
theorem c3_amended_witness :
    (SymbolTable.new.register_symbol "a" Context.Global
        (Except.error "boom") 0).2.stats.total_symbols =
      SymbolTable.new.stats.total_symbols + 1 ∧
    (SymbolTable.new.register_symbol "a" Context.Global (Except.error "boom") 0).2.uid_to_symbols =
      SymbolTable.new.uid_to_symbols ∧
    (SymbolTable.new.register_symbol "a" Context.Global
        (Except.error "boom") 0).2.stats.unique_uids =
      SymbolTable.new.stats.unique_uids ∧
    (SymbolTable.new.register_symbol "a" Context.Global
        (Except.error "boom") 0).2.stats.cache_hits =
      SymbolTable.new.stats.cache_hits ∧
    (SymbolTable.new.register_symbol "a" Context.Global
        (Except.error "boom") 0).2.stats.lookups =
      SymbolTable.new.stats.lookups ∧
    (SymbolTable.new.register_symbol "a" Context.Global
        (Except.error "boom") 0).2.stats.cleanup_count =
      SymbolTable.new.stats.cleanup_count ∧
    (SymbolTable.new.register_symbol "a" Context.Global
        (Except.error "boom") 0).2.mappingUid "a" Context.Global = none ∧
    (lookupA (SymbolTable.new.register_symbol "a" Context.Global
        (Except.error "boom") 0).2.symbol_to_mapping (rustLowercase "a")).isSome = true :=
  c3_register_failure_partial_state SymbolTable.new "a" Context.Global
    (Except.error "boom") 0 (SymbolError.UIDGenerationFailed "boom") rfl

/-- C1 counterexample: point "a" at identifier 7 under both the Global and the
Domain "d" contexts, then remove only the Global mapping.  The forward table
still maps ("a", Domain "d") to 7, yet identifier 7 has no reverse-index entry
at all — refuting "an identifier has a reverse entry iff at least one
(name, context) pair maps to it". -/
theorem c1_counterexample :
    lookupA ((((SymbolTable.new.set_mapping "a" Context.Global 7 0).set_mapping "a"
        (Context.Domain "d") 7 0).remove_mapping "a" Context.Global).2).symbol_to_mapping "a"
      = some { symbol := "a", mappings := [(Context.Domain "d", 7)],
               created_at := 0, last_accessed := 0 } ∧
    lookupA ((((SymbolTable.new.set_mapping "a" Context.Global 7 0).set_mapping "a"
        (Context.Domain "d") 7 0).remove_mapping "a" Context.Global).2).uid_to_symbols 7
      = none := by
  refine ⟨by decide, by decide⟩

/-- C1 amended: the reverse index is keyed by normalized name, not by
(name, context) pair.  When a name maps to the same identifier under two
different contexts, removing one of the two context mappings succeeds, keeps
the other forward mapping intact, but drops the name from the identifier's
reverse set (removing the reverse entry entirely when the set empties), so
the "iff" invariant holds only per name, not per (name, context) pair. -/
theorem c1_remove_mapping_drops_shared_reverse_name (t : SymbolTable) (name : String)
    (ctx ctx2 : Context) (uid : Nat) (m : SymbolMapping) (hne : ctx2 ≠ ctx)
    (hm : lookupA t.symbol_to_mapping (rustLowercase name) = some m)
    (h1 : lookupA m.mappings ctx = some uid)
    (h2 : lookupA m.mappings ctx2 = some uid) :
    (t.remove_mapping name ctx).1 = true ∧
    (t.remove_mapping name ctx).2.mappingUid name ctx2 = some uid ∧
    rustLowercase name ∉
      ((lookupA (t.remove_mapping name ctx).2.uid_to_symbols uid).getD []) := by
  have hmaps : lookupA (eraseA m.mappings ctx) ctx2 = some uid :=
    (lookupA_eraseA_ne m.mappings ctx ctx2 hne).trans h2
  have hnonnil : eraseA m.mappings ctx ≠ [] := by
    intro h0
    rw [h0] at hmaps
    simp [lookupA] at hmaps
  rcases hr : lookupA t.uid_to_symbols uid with _ | symbols
  · refine ⟨?_, ?_, ?_⟩ <;>
      simp [SymbolTable.remove_mapping, hm, h1, hr, hnonnil, SymbolTable.mappingUid,
        lookupA_insertA_self, hmaps]
  · by_cases hrem : removeS symbols (rustLowercase name) = []
    · refine ⟨?_, ?_, ?_⟩ <;>
        simp [SymbolTable.remove_mapping, hm, h1, hr, hrem, hnonnil,
          SymbolTable.mappingUid, lookupA_insertA_self, hmaps, lookupA_eraseA_self]
    · refine ⟨?_, ?_, ?_⟩ <;>
        simp [SymbolTable.remove_mapping, hm, h1, hr, hrem, hnonnil,
          SymbolTable.mappingUid, lookupA_insertA_self, hmaps, not_mem_removeS]

/-- Witness for C1 (amended) on the state where "a" points at 7 under both
Global and Domain "d". -/
theorem c1_amended_witness :
    (((SymbolTable.new.set_mapping "a" Context.Global 7 0).set_mapping "a"
        (Context.Domain "d") 7 0).remove_mapping "a" Context.Global).1 = true ∧
    (((SymbolTable.new.set_mapping "a" Context.Global 7 0).set_mapping "a"
        (Context.Domain "d") 7 0).remove_mapping "a"
        Context.Global).2.mappingUid "a" (Context.Domain "d") = some 7 ∧
    rustLowercase "a" ∉
      ((lookupA (((SymbolTable.new.set_mapping "a" Context.Global 7 0).set_mapping "a"
        (Context.Domain "d") 7 0).remove_mapping "a"
        Context.Global).2.uid_to_symbols 7).getD []) :=
  c1_remove_mapping_drops_shared_reverse_name
    ((SymbolTable.new.set_mapping "a" Context.Global 7 0).set_mapping "a"
      (Context.Domain "d") 7 0)
    "a" Context.Global (Context.Domain "d") 7
    { symbol := "a", mappings := [(Context.Global, 7), (Context.Domain "d", 7)],
      created_at := 0, last_accessed := 0 }
    (by decide) (by decide) (by decide) (by decide)

theorem cleanup_spec (t : SymbolTable) (maxAge minAcc now : Nat) :
    (t.cleanup maxAge minAcc now).1 =
      ((t.symbol_to_mapping.filter
        (fun p => decide (maxAge < now - p.2.last_accessed))).map Prod.fst).length ∧
    (t.cleanup maxAge minAcc now).2.symbol_to_mapping =
      ((t.symbol_to_mapping.filter
        (fun p => decide (maxAge < now - p.2.last_accessed))).map Prod.fst).foldl
          eraseA t.symbol_to_mapping ∧
    (t.cleanup maxAge minAcc now).2.stats.total_symbols =
      (((t.symbol_to_mapping.filter
        (fun p => decide (maxAge < now - p.2.last_accessed))).map Prod.fst).foldl
          SymbolTable.cleanupRemove t).symbol_to_mapping.length := by
  refine ⟨rfl, ?_, rfl⟩
  exact foldl_cleanupRemove_symbol_map _ t

/-- C4: on a registry whose `total_symbols` counter agrees with the number of
entries (true for a freshly populated registry) and whose keys are distinct,
`cleanup 0 0` removes at most that many entries and `total_symbols` drops by
exactly the returned count. -/
theorem c4_cleanup_total_symbols (t : SymbolTable) (now : Nat)
    (hnodup : (t.symbol_to_mapping.map Prod.fst).Nodup)
    (htotal : t.stats.total_symbols = t.symbol_to_mapping.length) :
    (t.cleanup 0 0 now).1 ≤ t.stats.total_symbols ∧
    (t.cleanup 0 0 now).2.stats.total_symbols =
      t.stats.total_symbols - (t.cleanup 0 0 now).1 := by
  obtain ⟨e1, _e2, e3⟩ := cleanup_spec t 0 0 now
  set rs := (t.symbol_to_mapping.filter
    (fun p => decide ((0 : Nat) < now - p.2.last_accessed))).map Prod.fst with hrs
  have hsub : List.Sublist rs (t.symbol_to_mapping.map Prod.fst) :=
    (List.filter_sublist t.symbol_to_mapping).map Prod.fst
  have hlen : rs.length ≤ t.symbol_to_mapping.length := by
    simpa using hsub.length_le
  have hrsnodup : rs.Nodup := hnodup.sublist hsub
  have hrsmem : ∀ s ∈ rs, s ∈ t.symbol_to_mapping.map Prod.fst := fun s hs =>
    hsub.subset hs
  have hflen := foldl_eraseA_length rs t.symbol_to_mapping hnodup hrsnodup hrsmem
  constructor
  · rw [e1, htotal]
    exact hlen
  · rw [e3, e1, foldl_cleanupRemove_symbol_map, htotal]
    omega

/-- Witness for C4 on a registry freshly populated with the two names "a" and
"b". -/
theorem c4_witness :
    (((SymbolTable.new.register_symbol "a" Context.Global (Except.ok 1) 5).2.register_symbol
        "b" Context.Global (Except.ok 2) 5).2.cleanup 0 0 9).1 ≤
      ((SymbolTable.new.register_symbol "a" Context.Global (Except.ok 1) 5).2.register_symbol
        "b" Context.Global (Except.ok 2) 5).2.stats.total_symbols ∧
    (((SymbolTable.new.register_symbol "a" Context.Global (Except.ok 1) 5).2.register_symbol
        "b" Context.Global (Except.ok 2) 5).2.cleanup 0 0 9).2.stats.total_symbols =
      ((SymbolTable.new.register_symbol "a" Context.Global (Except.ok 1) 5).2.register_symbol
        "b" Context.Global (Except.ok 2) 5).2.stats.total_symbols -
      (((SymbolTable.new.register_symbol "a" Context.Global (Except.ok 1) 5).2.register_symbol
        "b" Context.Global (Except.ok 2) 5).2.cleanup 0 0 9).1 :=
  c4_cleanup_total_symbols
    ((SymbolTable.new.register_symbol "a" Context.Global (Except.ok 1) 5).2.register_symbol
      "b" Context.Global (Except.ok 2) 5).2
    9 (by decide) (by decide)

/-- C10: `cleanup` removes an entry exactly when its age is strictly greater
than `max_age_ms` (so an entry whose age equals `max_age_ms` is retained,
untouched), and the `min_access_count` argument has no effect on the result. -/
theorem c10_cleanup_strict_age (t : SymbolTable) (now maxAge a1 a2 : Nat)
    (name : String) (m : SymbolMapping)
    (hnodup : (t.symbol_to_mapping.map Prod.fst).Nodup)
    (hlook : lookupA t.symbol_to_mapping name = some m) :
    t.cleanup maxAge a1 now = t.cleanup maxAge a2 now ∧
    (now - m.last_accessed ≤ maxAge →
      lookupA (t.cleanup maxAge a1 now).2.symbol_to_mapping name = some m) ∧
    (maxAge < now - m.last_accessed →
      lookupA (t.cleanup maxAge a1 now).2.symbol_to_mapping name = none) := by
  obtain ⟨_e1, e2, _e3⟩ := cleanup_spec t maxAge a1 now
  refine ⟨rfl, ?_, ?_⟩
  · intro hage
    rw [e2]
    set rs := (t.symbol_to_mapping.filter
      (fun p => decide (maxAge < now - p.2.last_accessed))).map Prod.fst with hrs
    have hnot : name ∉ rs := by
      intro hmem
      rw [hrs] at hmem
      rcases List.mem_map.mp hmem with ⟨p, hp, hfst⟩
      rcases List.mem_filter.mp hp with ⟨hpl, hcond⟩
      have hl1 : lookupA t.symbol_to_mapping p.1 = some p.2 :=
        lookupA_of_mem_nodup t.symbol_to_mapping p.1 p.2 hnodup (by cases p; exact hpl)
      rw [hfst, hlook] at hl1
      have hpm : m = p.2 := Option.some.inj hl1
      rw [← hpm] at hcond
      simp only [decide_eq_true_eq] at hcond
      omega
    exact (foldl_eraseA_lookup_not_mem rs t.symbol_to_mapping name hnot).trans hlook
  · intro hage
    rw [e2]
    apply foldl_eraseA_lookup_mem
    apply List.mem_map.mpr
    refine ⟨(name, m),
      List.mem_filter.mpr ⟨mem_of_lookupA t.symbol_to_mapping name m hlook, ?_⟩, rfl⟩
    simpa using hage

/-- Witness for C10: in a registry holding "a" (last accessed at 5) and "b"
(last accessed at 1), `cleanup` at time 6 with `max_age_ms = 1` retains "a"
(age exactly 1) independent of the `min_access_count` argument. -/
theorem c10_witness :
    ((SymbolTable.new.set_mapping "a" Context.Global 1 5).set_mapping "b" Context.Global
        2 1).cleanup 1 0 6 =
      ((SymbolTable.new.set_mapping "a" Context.Global 1 5).set_mapping "b" Context.Global
        2 1).cleanup 1 99 6 ∧
    ((6 : Nat) - 5 ≤ 1 →
      lookupA (((SymbolTable.new.set_mapping "a" Context.Global 1 5).set_mapping "b"
          Context.Global 2 1).cleanup 1 0 6).2.symbol_to_mapping "a" =
        some { symbol := "a", mappings := [(Context.Global, 1)],
               created_at := 5, last_accessed := 5 }) ∧
    ((1 : Nat) < 6 - 5 →
      lookupA (((SymbolTable.new.set_mapping "a" Context.Global 1 5).set_mapping "b"
          Context.Global 2 1).cleanup 1 0 6).2.symbol_to_mapping "a" = none) :=
  c10_cleanup_strict_age
    ((SymbolTable.new.set_mapping "a" Context.Global 1 5).set_mapping "b" Context.Global 2 1)
    6 1 0 99 "a"
    { symbol := "a", mappings := [(Context.Global, 1)], created_at := 5, last_accessed := 5 }
    (by decide) (by decide)

end UIDRel
